import Mathlib

/-!
A verification development for the team-based tag-reconciliation engine in
`src/codekit/cli/github_tag_teams.py`.

The engine's provider (pygithub / the GitHub REST API) is modelled abstractly:
a repository carries, as data, the provider's responses for ref lookup
(`refs`), annotated-tag-object creation (`create_git_tag`), ref creation
(`create_git_ref`) and team listing (`get_teams`).  Provider failures are
`GHError` values: every constructor stands for a `github.GithubException`
category (404 not-found, API-level transport failure, authorization failure).
Python exception propagation is modelled with `Except` results and with
operation traces that stop at the first error.  Pure logging lines of the
source are omitted, except for the per-tag `debug("  adding tag ...")` record
inside `tag_repo` (modelled as `Op.addingTag`, the dry-run "would create"
record) and the `max(names, key=len)` computation in `main` (modelled because
it raises `ValueError` on an empty sequence and so changes control flow).
-/

/-- Provider error categories; each constructor models a
`github.GithubException` (404, HTTP-level API failure, 401/403). -/
inductive GHError where
  | notFound
  | transport
  | unauthorized
  deriving DecidableEq

/-- A resolved git object: `type` (commit / tag) and `sha`, as exposed by
pygithub `GitRef.object`. -/
structure GitObject where
  type : String
  sha : String
  deriving DecidableEq

/-- A git ref as returned by pygithub `Repository.get_git_ref`: fully
qualified ref name plus the target object. -/
structure GitRef where
  ref : String
  object : GitObject
  deriving DecidableEq

/-- The annotated tag object returned by `Repository.create_git_tag`. -/
structure TagObject where
  sha : String
  deriving DecidableEq

/-- `github.InputGitAuthor`: the tagger identity built once in `main`. -/
structure Tagger where
  name : String
  email : String
  date : String
  deriving DecidableEq

deriving instance DecidableEq for Except

/-- A repository together with the provider's behaviour for it.  `refs` maps
a ref path (for example `tags/v1.0` or `heads/main`) to the target object or
an error; `create_git_tag` and `create_git_ref` give the provider's response
to the two write calls; `get_teams` is the provider's team listing for the
repository (team names). -/
structure Repo where
  full_name : String
  default_branch : String
  refs : String → Except GHError GitObject
  create_git_tag : String → String → String → String → Tagger → Except GHError TagObject
  create_git_ref : String → String → Except GHError GitRef

  get_teams : List String

/-- A GitHub team: name and the provider's repository listing
(`Team.get_repos`). -/
structure Team where
  name : String
  repos : List Repo

/-- Models pygithub `Repository.get_git_ref path`: on success the provider
echoes the requested path as the fully qualified ref name `refs/{path}` with
the resolved target object; on failure it raises a `GithubException`. -/
def Repo.get_git_ref (repo : Repo) (path : String) : Except GHError GitRef :=
  match repo.refs path with
  | Except.ok obj => Except.ok ⟨"refs/" ++ path, obj⟩
  | Except.error e => Except.error e

/-- `find_tag_by_name` (github_tag_teams.py:106-116).  Builds the path
`tags/{tag_name}`, queries the provider, returns the ref when it exists and
has a truthy `ref` field; the `except github.GithubException: pass` clause
turns every provider error — not only 404 — into `None`. -/
def find_tag_by_name (repo : Repo) (tag_name : String) : Option GitRef :=
  let tagfmt := "tags/" ++ tag_name
  match repo.get_git_ref tagfmt with
  | Except.ok ref => if ref.ref ≠ "" then some ref else none
  | Except.error _ => none

/-- Models `re.sub(r'^refs/tags/', '', s)` (github_tag_teams.py:149). -/
def stripRefTags (s : String) : String :=
  if "refs/tags/".data.isPrefixOf s.data then String.mk (s.data.drop 10) else s

/-- `find_tags_in_repo` (github_tag_teams.py:136-154): the subset of `tags`
found in the repository, with the `refs/tags/` prefix stripped from each
found ref name. -/
def find_tags_in_repo (repo : Repo) (tags : List String) : List String :=
  tags.filterMap fun t =>
    match find_tag_by_name repo t with
    | some ref => if ref.ref ≠ "" then some (stripRefTags ref.ref) else none
    | none => none

/-- One value of the `need` dict built by `find_repos_missing_tags`:
`{'repo': r, 'need_tags': missing_tags}`. -/
structure NeedEntry where
  repo : Repo
  need_tags : List String

/-- Python dict assignment `d[k] = v` on an insertion-ordered dict: replace
in place when the key exists, append otherwise. -/
def dictInsert {α : Type} (k : String) (v : α) : List (String × α) → List (String × α)
  | [] => [(k, v)]
  | (k', v') :: rest => if k' = k then (k, v) :: rest else (k', v') :: dictInsert k v rest

/-- The `missing_tags` comprehension of `find_repos_missing_tags`
(github_tag_teams.py:125): `[x for x in tags if x not in has_tags]`. -/
def missing_in (tags : List String) (r : Repo) : List String :=
  tags.filter fun x => !((find_tags_in_repo r tags).contains x)

/-- The loop of `find_repos_missing_tags` (github_tag_teams.py:122-131),
threading the `need` dict through the repositories. -/
def find_repos_missing_tags_go (tags : List String) :
    List Repo → List (String × NeedEntry) → List (String × NeedEntry)
  | [], need => need
  | r :: rest, need =>
    let has_tags := find_tags_in_repo r tags
    let missing_tags := tags.filter fun x => !(has_tags.contains x)
    find_repos_missing_tags_go tags rest
      (if missing_tags.isEmpty then need else dictInsert r.full_name ⟨r, missing_tags⟩ need)

/-- `find_repos_missing_tags` (github_tag_teams.py:119-133): the `need` dict
mapping each repository full name to its missing-tag entry, starting from the
empty dict. -/
def find_repos_missing_tags (repos : List Repo) (tags : List String) :
    List (String × NeedEntry) :=
  find_repos_missing_tags_go tags repos []

/-- `find_repo_teams` (github_tag_teams.py:160-169) with the module-level
`cached_teams` dict made an explicit argument (it is a process-global in
Python; each CLI invocation is a fresh interpreter, so a run always starts
from the empty dict).  Returns the team list, the updated cache, and the
number of provider `get_teams` calls made. -/
def find_repo_teams (cached_teams : List (String × List String)) (repo : Repo) :
    List String × List (String × List String) × Nat :=
  match List.lookup repo.full_name cached_teams with
  | some teams => (teams, cached_teams, 0)
  | none =>
    let teams := repo.get_teams
    (teams, dictInsert repo.full_name teams cached_teams, 1)

/-- Provider calls observable in the applier phase.  `addingTag` models the
per-tag `debug("  adding tag {...}")` record, emitted in dry runs as the
"would create" record; the two write operations record their arguments. -/
inductive Op where
  | getRef (path : String)
  | addingTag (tag : String)
  | createTagObject (tag : String) (message : String) (obj_sha : String)
      (obj_type : String) (tagger : Tagger)
  | createRef (path : String) (sha : String)
  deriving DecidableEq

/-- The per-tag loop of `tag_repo` (github_tag_teams.py:197-212): for each
tag record `addingTag`; in dry-run mode skip the writes; otherwise create the
annotated tag object (message `Version {t}`, the head's sha and type, the
tagger) and then the ref `refs/tags/{t}` at the created object's sha.  On a
provider error the Python exception propagates: the trace stops and the
error is returned. -/
def tag_tags (repo : Repo) (head : GitRef) (tagger : Tagger) (dry_run : Bool) :
    List String → List Op × Option GHError
  | [] => ([], none)
  | t :: rest =>
    if dry_run then
      let p := tag_tags repo head tagger dry_run rest
      (Op.addingTag t :: p.1, p.2)
    else
      match repo.create_git_tag t ("Version " ++ t) head.object.sha head.object.type tagger with
      | Except.error e =>
        ([Op.addingTag t,
          Op.createTagObject t ("Version " ++ t) head.object.sha head.object.type tagger],
         some e)
      | Except.ok tag_obj =>
        match repo.create_git_ref ("refs/tags/" ++ t) tag_obj.sha with
        | Except.error e =>
          ([Op.addingTag t,
            Op.createTagObject t ("Version " ++ t) head.object.sha head.object.type tagger,
            Op.createRef ("refs/tags/" ++ t) tag_obj.sha],
           some e)
        | Except.ok _ =>
          let p := tag_tags repo head tagger dry_run rest
          (Op.addingTag t
             :: Op.createTagObject t ("Version " ++ t) head.object.sha head.object.type tagger
             :: Op.createRef ("refs/tags/" ++ t) tag_obj.sha
             :: p.1,
           p.2)

/-- `tag_repo` (github_tag_teams.py:178-213): resolve the default branch's
head ref once, then run the per-tag loop.  A head-resolution error
propagates before any tag is attempted. -/
def tag_repo (repo : Repo) (tags : List String) (tagger : Tagger) (dry_run : Bool) :
    List Op × Option GHError :=
  let path := "heads/" ++ repo.default_branch
  match repo.get_git_ref path with
  | Except.error e => ([Op.getRef path], some e)
  | Except.ok head =>
    let p := tag_tags repo head tagger dry_run tags
    (Op.getRef path :: p.1, p.2)

/-- The final loop of `main` (github_tag_teams.py:295-298): call `tag_repo`
for each entry of the `untagged_repos` dict.  There is no exception handling,
so the first error aborts the loop; the result pairs each attempted key with
its trace, plus the propagated error if any. -/
def apply_all (tagger : Tagger) (dry_run : Bool) :
    List (String × NeedEntry) → List (String × List Op) × Option GHError
  | [] => ([], none)
  | (k, entry) :: rest =>
    let p := tag_repo entry.repo entry.need_tags tagger dry_run
    match p.2 with
    | some e => ([(k, p.1)], some e)
    | none =>
      let q := apply_all tagger dry_run rest
      ((k, p.1) :: q.1, q.2)

/-- The repository-set resolution fragment of `main`
(github_tag_teams.py:239-255): filter the organization's teams by membership
of their name in the requested list, then chain the matched teams'
repository listings into one flat list (no deduplication). -/
def resolve_target_repos (org_teams : List Team) (team_names : List String) : List Repo :=
  ((org_teams.filter fun t => team_names.contains t.name).map Team.repos).flatten

/-- Terminal states of `main`: `raise RuntimeError('No teams found')`; the
`ValueError` raised by `max(names, key=len)` on an empty name list; the
`sys.exit('no untagged repos -- nothing to do')` exit; or a completed apply
phase with its per-repository traces and propagated error if any. -/
inductive MainOutcome where
  | noTeamsError
  | emptyNamesError
  | nothingToDo
  | ran (results : List (String × List Op)) (err : Option GHError)
  deriving DecidableEq

/-- `main` (github_tag_teams.py:216-298) after argument parsing, tagger
construction and login: filter the teams, abort when none match, resolve the
target repositories, compute the longest name (raises on an empty list),
analyze missing tags, exit when nothing is missing, otherwise run the apply
loop.  Logging-only lines are omitted. -/
def run_main (org_teams : List Team) (team_names tags : List String)
    (tagger : Tagger) (dry_run : Bool) : MainOutcome :=
  let tag_teams := org_teams.filter fun t => team_names.contains t.name
  if tag_teams.isEmpty then MainOutcome.noTeamsError
  else
    let target_repos := (tag_teams.map Team.repos).flatten
    let names := target_repos.map Repo.full_name
    if names.isEmpty then MainOutcome.emptyNamesError
    else
      let untagged_repos := find_repos_missing_tags target_repos tags
      if untagged_repos.isEmpty then MainOutcome.nothingToDo
      else
        let p := apply_all tagger dry_run untagged_repos
        MainOutcome.ran p.1 p.2

/-- Whether an operation is a provider write (`create_git_tag` /
`create_git_ref`). -/
def Op.isWrite : Op → Bool
  | Op.createTagObject _ _ _ _ _ => true
  | Op.createRef _ _ => true
  | _ => false

/-- Whether an operation is a head-ref resolution. -/
def Op.isGetRef : Op → Bool
  | Op.getRef _ => true
  | _ => false

/-- The write operations of an outcome's traces (empty unless the apply
phase ran). -/
def MainOutcome.writeOps : MainOutcome → List Op
  | MainOutcome.ran res _ => ((res.map Prod.snd).flatten).filter Op.isWrite
  | _ => []

/-- The tags recorded per-tag by `tag_repo` (the dry-run "would create"
list). -/
def intendedTags (ops : List Op) : List String :=
  ops.filterMap fun o =>
    match o with
    | Op.addingTag t => some t
    | _ => none

/-- The tag names for which a tag object creation call was issued. -/
def createdTagNames (ops : List Op) : List String :=
  ops.filterMap fun o =>
    match o with
    | Op.createTagObject t _ _ _ _ => some t
    | _ => none

/-- Whether an `Except` result is a success. -/
def isOkE {ε α : Type} : Except ε α → Bool
  | Except.ok _ => true
  | Except.error _ => false

/-- The tag object the provider returns for a given create call (arbitrary
placeholder when the call fails; only used under success hypotheses). -/
def tagObjFor (repo : Repo) (head : GitRef) (tagger : Tagger) (t : String) : TagObject :=
  match repo.create_git_tag t ("Version " ++ t) head.object.sha head.object.type tagger with
  | Except.ok o => o
  | Except.error _ => ⟨""⟩

/-- Specification-side description of a repository's missing tags: the
requested tags, in request order, for which Tag Lookup returned absent. -/
def missing_by_lookup (tags : List String) (r : Repo) : List String :=
  tags.filter fun t => (find_tag_by_name r t).isNone

/-- Specification-side description of the analyzer dict's entry for a key:
the last repository in the list with that full name whose missing-tag list
is non-empty, if any. -/
def last_needed (tags : List String) (k : String) : List Repo → Option NeedEntry
  | [] => none
  | r :: rest =>
    match last_needed tags k rest with
    | some e => some e
    | none =>
      if r.full_name = k ∧ !(missing_in tags r).isEmpty then
        some ⟨r, missing_in tags r⟩
      else none

/-- A concrete tagger identity used by witnesses. -/
def tagger0 : Tagger :=
  ⟨"Jane Doe", "jd@example.org", "2018-01-01T00:00:00Z"⟩

/-- Concrete repository: carries tag `v1.0`, lacks `v1.1`; head resolvable;
all write calls succeed. -/
def wRepo : Repo where
  full_name := "acme/widget"
  default_branch := "main"
  refs := fun p =>
    if p = "heads/main" then Except.ok ⟨"commit", "headsha"⟩
    else if p = "tags/v1.0" then Except.ok ⟨"tag", "t0sha"⟩
    else Except.error GHError.notFound
  create_git_tag := fun t _ _ _ _ => Except.ok ⟨"to-" ++ t⟩
  create_git_ref := fun p s => Except.ok ⟨p, ⟨"tag", s⟩⟩
  get_teams := ["Core"]

/-- Concrete repository whose provider fails every call with an
authorization error (a `github.GithubException`). -/
def authFailRepo : Repo where
  full_name := "acme/locked"
  default_branch := "main"
  refs := fun _ => Except.error GHError.unauthorized
  create_git_tag := fun _ _ _ _ _ => Except.error GHError.unauthorized
  create_git_ref := fun _ _ => Except.error GHError.unauthorized
  get_teams := []

/-- Concrete repository where creating the tag object for `v1.0` fails but
every other call succeeds. -/
def failTagRepo : Repo where
  full_name := "acme/r1"
  default_branch := "main"
  refs := fun p =>
    if p = "heads/main" then Except.ok ⟨"commit", "sha1"⟩
    else Except.error GHError.notFound
  create_git_tag := fun t _ _ _ _ =>
    if t = "v1.0" then Except.error GHError.unauthorized else Except.ok ⟨"to-" ++ t⟩
  create_git_ref := fun p s => Except.ok ⟨p, ⟨"tag", s⟩⟩
  get_teams := []

/-- Concrete repository with no tags where every call succeeds. -/
def okRepo2 : Repo where
  full_name := "acme/r2"
  default_branch := "main"
  refs := fun p =>
    if p = "heads/main" then Except.ok ⟨"commit", "sha2"⟩
    else Except.error GHError.notFound
  create_git_tag := fun t _ _ _ _ => Except.ok ⟨"to-" ++ t⟩
  create_git_ref := fun p s => Except.ok ⟨p, ⟨"tag", s⟩⟩
  get_teams := []

/-- Concrete repository named `acme/w` (branch `b1`) lacking tag `v1.0`. -/
def cexRepoA : Repo where
  full_name := "acme/w"
  default_branch := "b1"
  refs := fun _ => Except.error GHError.notFound
  create_git_tag := fun t _ _ _ _ => Except.ok ⟨"to-" ++ t⟩
  create_git_ref := fun p s => Except.ok ⟨p, ⟨"tag", s⟩⟩
  get_teams := []

/-- Concrete repository also named `acme/w` (branch `b2`) carrying tag
`v1.0`. -/
def cexRepoB : Repo where
  full_name := "acme/w"
  default_branch := "b2"
  refs := fun p =>
    if p = "tags/v1.0" then Except.ok ⟨"tag", "t0sha"⟩
    else Except.error GHError.notFound
  create_git_tag := fun t _ _ _ _ => Except.ok ⟨"to-" ++ t⟩
  create_git_ref := fun p s => Except.ok ⟨p, ⟨"tag", s⟩⟩
  get_teams := []

/-- Two concrete teams that both list `wRepo`. -/
def demoTeams : List Team :=
  [⟨"A", [wRepo]⟩, ⟨"B", [wRepo]⟩]

/-- A concrete repository sharing `wRepo`'s full name but with a different
provider team listing (a distinct instance for the same repository
identity). -/
def wRepoOther : Repo where
  full_name := "acme/widget"
  default_branch := "main"
  refs := fun _ => Except.error GHError.notFound
  create_git_tag := fun t _ _ _ _ => Except.ok ⟨"to-" ++ t⟩
  create_git_ref := fun p s => Except.ok ⟨p, ⟨"tag", s⟩⟩
  get_teams := ["Other"]

theorem refs_tags_ne (t : String) : ("refs/tags/" ++ t : String) ≠ "" := by
  intro hc
  have hd : ("refs/tags/" ++ t : String).data = ("" : String).data := by rw [hc]
  rw [String.data_append] at hd
  have h2 := List.append_eq_nil.mp hd
  exact absurd h2.1 (by decide)

theorem refs_append_tags (t : String) :
    ("refs/" ++ ("tags/" ++ t) : String) = "refs/tags/" ++ t := by
  apply String.ext
  rw [String.data_append, String.data_append, String.data_append, ← List.append_assoc]
  rfl

theorem stripRefTags_append (t : String) : stripRefTags ("refs/tags/" ++ t) = t := by
  have hd : ("refs/tags/" ++ t).data = "refs/tags/".data ++ t.data := String.data_append _ _
  have hp : "refs/tags/".data.isPrefixOf ("refs/tags/" ++ t).data = true := by
    rw [hd]
    exact List.isPrefixOf_iff_prefix.mpr (List.prefix_append _ _)
  unfold stripRefTags
  rw [if_pos hp, hd]
  rw [show (10 : Nat) = ("refs/tags/".data).length from rfl, List.drop_left]

theorem find_tag_by_name_eq (r : Repo) (t : String) :
    find_tag_by_name r t =
      match r.refs ("tags/" ++ t) with
      | Except.ok obj => some ⟨"refs/tags/" ++ t, obj⟩
      | Except.error _ => none := by
  unfold find_tag_by_name Repo.get_git_ref
  cases h : r.refs ("tags/" ++ t) with
  | ok obj =>
    simp only [h]
    rw [refs_append_tags]
    rw [if_pos (refs_tags_ne t)]
  | error e => simp only [h]

theorem find_tags_in_repo_eq (r : Repo) (tags : List String) :
    find_tags_in_repo r tags = tags.filter fun t => (find_tag_by_name r t).isSome := by
  induction tags with
  | nil => rfl
  | cons t rest ih =>
    unfold find_tags_in_repo at ih ⊢
    rw [List.filterMap_cons, List.filter_cons]
    cases h : find_tag_by_name r t with
    | none => simpa [h] using ih
    | some ref =>
      have he := find_tag_by_name_eq r t
      rw [h] at he
      cases hr : r.refs ("tags/" ++ t) with
      | ok obj =>
        rw [hr] at he
        have href : ref = ⟨"refs/tags/" ++ t, obj⟩ := Option.some.inj he
        subst href
        simp only [h, Option.isSome_some, if_pos]
        rw [if_pos (refs_tags_ne t)]
        rw [stripRefTags_append]
        simpa using ih
      | error e =>
        rw [hr] at he
        exact absurd he (by simp)

theorem contains_eq_of_mem_iff {l l' : List String} {a : String} (h : a ∈ l ↔ a ∈ l') :
    l.contains a = l'.contains a := by
  rw [Bool.eq_iff_iff]
  constructor
  · intro hx
    exact List.elem_iff.mpr (h.mp (List.elem_iff.mp hx))
  · intro hx
    exact List.elem_iff.mpr (h.mpr (List.elem_iff.mp hx))

theorem missing_in_eq (tags : List String) (r : Repo) :
    missing_in tags r = missing_by_lookup tags r := by
  unfold missing_in missing_by_lookup
  apply List.filter_congr
  intro x hx
  rw [find_tags_in_repo_eq]
  cases h : find_tag_by_name r x with
  | none =>
    have hc : (tags.filter fun t => (find_tag_by_name r t).isSome).contains x = false := by
      cases hcc : (tags.filter fun t => (find_tag_by_name r t).isSome).contains x
      · rfl
      · have hmem := List.elem_iff.mp hcc
        have h2 := (List.mem_filter.mp hmem).2
        rw [h] at h2
        exact absurd h2 (by simp)
    rw [hc]
    rfl
  | some ref =>
    have hmem : x ∈ tags.filter fun t => (find_tag_by_name r t).isSome :=
      List.mem_filter.mpr ⟨hx, by rw [h]; rfl⟩
    have hc : (tags.filter fun t => (find_tag_by_name r t).isSome).contains x = true :=
      List.elem_iff.mpr hmem
    rw [hc]
    rfl

theorem lookup_cons_eq {α : Type} (k a : String) (b : α) (l : List (String × α)) :
    List.lookup k ((a, b) :: l) = if k = a then some b else List.lookup k l := by
  by_cases h : k = a
  · subst h
    simp [List.lookup]
  · have hb : (k == a) = false := beq_eq_false_iff_ne.mpr h
    simp [List.lookup, hb, h]

theorem lookup_dictInsert {α : Type} (k k' : String) (v : α) (l : List (String × α)) :
    List.lookup k (dictInsert k' v l) = if k = k' then some v else List.lookup k l := by
  induction l with
  | nil =>
    unfold dictInsert
    rw [lookup_cons_eq]
  | cons p rest ih =>
    obtain ⟨a, b⟩ := p
    unfold dictInsert
    by_cases hak : a = k'
    · rw [if_pos hak]
      subst hak
      rw [lookup_cons_eq, lookup_cons_eq]
      by_cases hk : k = a <;> simp [hk]
    · rw [if_neg hak]
      rw [lookup_cons_eq, lookup_cons_eq, ih]
      by_cases hka : k = a
      · have hkk : ¬(k = k') := fun hc => hak (hka ▸ hc)
        simp [hka, hkk, hak]
      · simp [hka]

theorem mem_keys_dictInsert {α : Type} (x k : String) (v : α) (l : List (String × α)) :
    x ∈ (dictInsert k v l).map Prod.fst ↔ x = k ∨ x ∈ l.map Prod.fst := by
  induction l with
  | nil => simp [dictInsert]
  | cons p rest ih =>
    obtain ⟨a, b⟩ := p
    unfold dictInsert
    by_cases hak : a = k
    · subst hak
      simp [List.mem_cons]
    · rw [if_neg hak]
      simp only [List.map_cons, List.mem_cons, ih]
      tauto

theorem nodup_keys_dictInsert {α : Type} (k : String) (v : α) (l : List (String × α))
    (h : (l.map Prod.fst).Nodup) : ((dictInsert k v l).map Prod.fst).Nodup := by
  induction l with
  | nil => simp [dictInsert]
  | cons p rest ih =>
    obtain ⟨a, b⟩ := p
    rw [List.map_cons, List.nodup_cons] at h
    unfold dictInsert
    by_cases hak : a = k
    · subst hak
      rw [if_pos rfl, List.map_cons, List.nodup_cons]
      exact ⟨h.1, h.2⟩
    · rw [if_neg hak]
      rw [List.map_cons, List.nodup_cons]
      refine ⟨?_, ih h.2⟩
      intro hmem
      rcases (mem_keys_dictInsert a k v rest).mp hmem with h1 | h2
      · exact hak h1
      · exact h.1 h2

theorem lookup_go (tags : List String) (repos : List Repo)
    (need : List (String × NeedEntry)) (k : String) :
    List.lookup k (find_repos_missing_tags_go tags repos need)
      = match last_needed tags k repos with
        | some e => some e
        | none => List.lookup k need := by
  induction repos generalizing need with
  | nil => rfl
  | cons r rest ih =>
    have hgo : find_repos_missing_tags_go tags (r :: rest) need
        = find_repos_missing_tags_go tags rest
            (if (missing_in tags r).isEmpty then need
             else dictInsert r.full_name ⟨r, missing_in tags r⟩ need) := rfl
    rw [hgo, ih]
    cases hln : last_needed tags k rest with
    | some e => simp [last_needed, hln]
    | none =>
      simp only [last_needed, hln]
      cases hmt : (missing_in tags r).isEmpty with
      | true => simp [hmt]
      | false =>
        simp only [Bool.false_eq_true, if_false]
        rw [lookup_dictInsert]
        by_cases hk : r.full_name = k
        · subst hk
          simp
        · have hk' : ¬(k = r.full_name) := fun hh => hk hh.symm
          simp [hk, hk']

theorem nodup_keys_go (tags : List String) (repos : List Repo)
    (need : List (String × NeedEntry)) (h : (need.map Prod.fst).Nodup) :
    ((find_repos_missing_tags_go tags repos need).map Prod.fst).Nodup := by
  induction repos generalizing need with
  | nil => exact h
  | cons r rest ih =>
    have hgo : find_repos_missing_tags_go tags (r :: rest) need
        = find_repos_missing_tags_go tags rest
            (if (missing_in tags r).isEmpty then need
             else dictInsert r.full_name ⟨r, missing_in tags r⟩ need) := rfl
    rw [hgo]
    apply ih
    by_cases hmt : (missing_in tags r).isEmpty = true
    · rw [if_pos hmt]
      exact h
    · rw [if_neg hmt]
      exact nodup_keys_dictInsert _ _ _ h

theorem last_needed_none (tags : List String) (k : String) (repos : List Repo)
    (h : ∀ x ∈ repos, x.full_name ≠ k) : last_needed tags k repos = none := by
  induction repos with
  | nil => rfl
  | cons r rest ih =>
    have hr : last_needed tags k rest = none := ih fun x hx => h x (List.mem_cons_of_mem r hx)
    simp only [last_needed, hr]
    rw [if_neg]
    intro hc
    exact h r (List.mem_cons_self r rest) hc.1

theorem last_needed_nodup (tags : List String) (repos : List Repo) (r : Repo)
    (hn : (repos.map Repo.full_name).Nodup) (hr : r ∈ repos) :
    last_needed tags r.full_name repos
      = if (missing_in tags r).isEmpty then none else some ⟨r, missing_in tags r⟩ := by
  induction repos with
  | nil => cases hr
  | cons a rest ih =>
    rw [List.map_cons, List.nodup_cons] at hn
    rcases List.mem_cons.mp hr with heq | hmem
    · subst heq
      have hnone : last_needed tags r.full_name rest = none := by
        apply last_needed_none
        intro x hx hceq
        exact hn.1 (hceq ▸ List.mem_map_of_mem Repo.full_name hx)
      simp only [last_needed, hnone]
      cases hmt : (missing_in tags r).isEmpty with
      | true => simp [hmt]
      | false => simp [hmt]
    · have han : a.full_name ≠ r.full_name := by
        intro hc
        exact hn.1 (hc ▸ List.mem_map_of_mem Repo.full_name hmem)
      have hrest := ih hn.2 hmem
      simp only [last_needed, hrest]
      cases hmt : (missing_in tags r).isEmpty with
      | true => simp [hmt, han]
      | false => simp [hmt]

/-- C1: for a repository list with distinct full names, the analyzer's map
has an entry under a repository's full name if and only if at least one
requested tag is absent from that repository, the entry holds that
repository and exactly the requested tags for which Tag Lookup returned
absent, in the caller's original tag order, and a repository with no
missing tags is omitted. -/
theorem analyzer_missing_tags_correct (repos : List Repo) (tags : List String) (r : Repo)
    (hnodup : (repos.map Repo.full_name).Nodup) (hr : r ∈ repos) :
    List.lookup r.full_name (find_repos_missing_tags repos tags)
      = if (missing_by_lookup tags r).isEmpty then none
        else some ⟨r, missing_by_lookup tags r⟩ := by
  have h1 : List.lookup r.full_name (find_repos_missing_tags repos tags)
      = last_needed tags r.full_name repos := by
    rw [find_repos_missing_tags, lookup_go]
    cases last_needed tags r.full_name repos <;> rfl
  rw [h1, last_needed_nodup tags repos r hnodup hr, missing_in_eq]

/-- Witness for C1: one repository carrying `v1.0` but not `v1.1`; the
analyzer maps its full name to exactly the missing tag `v1.1`. -/
theorem analyzer_missing_tags_correct_witness :
    (([wRepo].map Repo.full_name).Nodup ∧ wRepo ∈ [wRepo])
    ∧ List.lookup wRepo.full_name (find_repos_missing_tags [wRepo] ["v1.0", "v1.1"])
        = (if (missing_by_lookup ["v1.0", "v1.1"] wRepo).isEmpty then none
           else some ⟨wRepo, missing_by_lookup ["v1.0", "v1.1"] wRepo⟩)
    ∧ missing_by_lookup ["v1.0", "v1.1"] wRepo = ["v1.1"] := by
  refine ⟨⟨by decide, List.mem_singleton.mpr rfl⟩, ?_, by decide⟩
  exact analyzer_missing_tags_correct [wRepo] ["v1.0", "v1.1"] wRepo (by decide)
    (List.mem_singleton.mpr rfl)

/-- C10 (amended): the analyzer's map has pairwise-distinct keys — so the
apply loop of `main` runs `tag_repo` at most once per distinct full name —
and the entry stored under a key is the entry of the last analyzed
repository with that full name whose missing-tag list was non-empty (an
entry with no missing tags never displaces an earlier entry, see the
counterexample). -/
theorem analyzer_keys_nodup_last_needed (repos : List Repo) (tags : List String) (k : String) :
    ((find_repos_missing_tags repos tags).map Prod.fst).Nodup
    ∧ List.lookup k (find_repos_missing_tags repos tags) = last_needed tags k repos := by
  constructor
  · exact nodup_keys_go tags repos [] (by simp)
  · rw [find_repos_missing_tags, lookup_go]
    cases last_needed tags k repos <;> rfl

/-- Counterexample for C10 as stated: two analyzed entries share the full
name `acme/w`; the first (branch `b1`) misses `v1.0`, the last (branch `b2`)
carries it.  The entry handed to the applier is the FIRST analyzed entry,
not the last one, refuting "the last analyzed entry for that full name is
the one applied". -/
theorem applier_last_entry_cex :
    ((find_repos_missing_tags [cexRepoA, cexRepoB] ["v1.0"]).map
        fun p => (p.1, p.2.need_tags, p.2.repo.default_branch)) = [("acme/w", ["v1.0"], "b1")]
    ∧ cexRepoB.full_name = "acme/w" ∧ cexRepoB.default_branch = "b2" := by
  refine ⟨by decide, rfl, rfl⟩

theorem tag_tags_dry (repo : Repo) (head : GitRef) (tagger : Tagger) (tags : List String) :
    tag_tags repo head tagger true tags = (tags.map Op.addingTag, none) := by
  induction tags with
  | nil => rfl
  | cons t rest ih => simp [tag_tags, ih]

theorem tag_tags_ok_trace (repo : Repo) (head : GitRef) (tagger : Tagger) (tags : List String)
    (hcreate : ∀ t ∈ tags,
      isOkE (repo.create_git_tag t ("Version " ++ t) head.object.sha head.object.type tagger)
        = true)
    (href : ∀ t ∈ tags,
      isOkE (repo.create_git_ref ("refs/tags/" ++ t) (tagObjFor repo head tagger t).sha)
        = true) :
    tag_tags repo head tagger false tags
      = (tags.flatMap fun t =>
          [Op.addingTag t,
           Op.createTagObject t ("Version " ++ t) head.object.sha head.object.type tagger,
           Op.createRef ("refs/tags/" ++ t) (tagObjFor repo head tagger t).sha], none) := by
  induction tags with
  | nil => rfl
  | cons t rest ih =>
    have hc := hcreate t (List.mem_cons_self t rest)
    have hr := href t (List.mem_cons_self t rest)
    cases hct : repo.create_git_tag t ("Version " ++ t) head.object.sha head.object.type tagger with
    | error e =>
      rw [hct] at hc
      exact absurd hc (by simp [isOkE])
    | ok tag_obj =>
      have hobj : tagObjFor repo head tagger t = tag_obj := by
        unfold tagObjFor
        rw [hct]
      rw [hobj] at hr
      cases hcr : repo.create_git_ref ("refs/tags/" ++ t) tag_obj.sha with
      | error e =>
        rw [hcr] at hr
        exact absurd hr (by simp [isOkE])
      | ok rr =>
        have ihh := ih (fun x hx => hcreate x (List.mem_cons_of_mem t hx))
          (fun x hx => href x (List.mem_cons_of_mem t hx))
        simp [tag_tags, hct, hcr, ihh, hobj, List.flatMap_cons]

/-- C2: when the head ref resolves and all creates succeed, a non-dry
`tag_repo` resolves the default branch's head exactly once and, for each
missing tag in request order, issues one `create_git_tag` call with message
`Version {tag}`, the tagger identity, and the single resolved head sha and
type, followed by one `create_git_ref` call for `refs/tags/{tag}` at the
newly created tag object's sha; every tag object points at the same head
sha. -/
theorem tag_repo_single_head_trace (repo : Repo) (tags : List String) (tagger : Tagger)
    (hobj : GitObject)
    (_hne : tags ≠ [])
    (hhead : repo.refs ("heads/" ++ repo.default_branch) = Except.ok hobj)
    (hcreate : ∀ t ∈ tags,
      isOkE (repo.create_git_tag t ("Version " ++ t) hobj.sha hobj.type tagger) = true)
    (href : ∀ t ∈ tags,
      isOkE (repo.create_git_ref ("refs/tags/" ++ t)
        (tagObjFor repo ⟨"refs/" ++ ("heads/" ++ repo.default_branch), hobj⟩ tagger t).sha)
        = true) :
    tag_repo repo tags tagger false
      = (Op.getRef ("heads/" ++ repo.default_branch)
           :: tags.flatMap (fun t =>
             [Op.addingTag t,
              Op.createTagObject t ("Version " ++ t) hobj.sha hobj.type tagger,
              Op.createRef ("refs/tags/" ++ t)
                (tagObjFor repo ⟨"refs/" ++ ("heads/" ++ repo.default_branch), hobj⟩ tagger t).sha]),
         none)
    ∧ (tag_repo repo tags tagger false).1.countP Op.isGetRef = 1 := by
  have hget : repo.get_git_ref ("heads/" ++ repo.default_branch)
      = Except.ok ⟨"refs/" ++ ("heads/" ++ repo.default_branch), hobj⟩ := by
    unfold Repo.get_git_ref
    rw [hhead]
  have htrace := tag_tags_ok_trace repo
    ⟨"refs/" ++ ("heads/" ++ repo.default_branch), hobj⟩ tagger tags hcreate href
  have h1 : tag_repo repo tags tagger false
      = (Op.getRef ("heads/" ++ repo.default_branch)
           :: tags.flatMap (fun t =>
             [Op.addingTag t,
              Op.createTagObject t ("Version " ++ t) hobj.sha hobj.type tagger,
              Op.createRef ("refs/tags/" ++ t)
                (tagObjFor repo ⟨"refs/" ++ ("heads/" ++ repo.default_branch), hobj⟩ tagger t).sha]),
         none) := by
    simp [tag_repo, hget, htrace]
  refine ⟨h1, ?_⟩
  rw [h1]
  have hz : (tags.flatMap fun t =>
      [Op.addingTag t,
       Op.createTagObject t ("Version " ++ t) hobj.sha hobj.type tagger,
       Op.createRef ("refs/tags/" ++ t)
         (tagObjFor repo ⟨"refs/" ++ ("heads/" ++ repo.default_branch), hobj⟩ tagger t).sha]).countP
        Op.isGetRef = 0 := by
    apply List.countP_eq_zero.mpr
    intro o ho
    rcases List.mem_flatMap.mp ho with ⟨t, ht, hmem⟩
    simp only [List.mem_cons, List.not_mem_nil, or_false] at hmem
    rcases hmem with h | h | h <;> subst h <;> simp [Op.isGetRef]
  rw [List.countP_cons_of_pos _ _ (by rfl), hz]

/-- Witness for C2: a concrete repository and two tags; the trace resolves
the head once and creates tag object and ref for `v1.0` then `v1.1`, all at
head sha `headsha`. -/
theorem tag_repo_single_head_trace_witness :
    ((["v1.0", "v1.1"] : List String) ≠ []
      ∧ wRepo.refs ("heads/" ++ wRepo.default_branch) = Except.ok ⟨"commit", "headsha"⟩)
    ∧ tag_repo wRepo ["v1.0", "v1.1"] tagger0 false
        = (Op.getRef "heads/main"
             :: (["v1.0", "v1.1"] : List String).flatMap (fun t =>
                  [Op.addingTag t,
                   Op.createTagObject t ("Version " ++ t) "headsha" "commit" tagger0,
                   Op.createRef ("refs/tags/" ++ t) ("to-" ++ t)]),
           none)
    ∧ (tag_repo wRepo ["v1.0", "v1.1"] tagger0 false).1.countP Op.isGetRef = 1 := by
  refine ⟨⟨by decide, by decide⟩, ?_, ?_⟩
  · exact (tag_repo_single_head_trace wRepo ["v1.0", "v1.1"] tagger0 ⟨"commit", "headsha"⟩
      (by decide) (by decide) (by decide) (by decide)).1
  · exact (tag_repo_single_head_trace wRepo ["v1.0", "v1.1"] tagger0 ⟨"commit", "headsha"⟩
      (by decide) (by decide) (by decide) (by decide)).2

/-- Counterexample for C4 as stated: creating tag `v1.0` on `acme/r1` fails,
and the run stops there — neither `v1.1` on `acme/r1` nor any tag on
`acme/r2` is attempted (the result holds a single entry whose trace ends at
the failed create). -/
theorem tag_failure_aborts_run_cex :
    apply_all tagger0 false
        [("acme/r1", ⟨failTagRepo, ["v1.0", "v1.1"]⟩), ("acme/r2", ⟨okRepo2, ["v1.0"]⟩)]
      = ([("acme/r1",
            [Op.getRef "heads/main", Op.addingTag "v1.0",
             Op.createTagObject "v1.0" "Version v1.0" "sha1" "commit" tagger0])],
         some GHError.unauthorized) := by decide

/-- C4 (amended): a provider failure while creating one tag propagates as an
exception, so the remaining tags of that repository are not attempted (the
per-tag trace stops at the failed create), and a `tag_repo` failure for one
repository aborts the apply loop of `main`, so the remaining repositories
are not attempted. -/
theorem tag_failure_aborts_remaining_work
    (repo : Repo) (head : GitRef) (tagger : Tagger) (t : String) (rest : List String)
    (e : GHError) (k : String) (entry : NeedEntry) (rest' : List (String × NeedEntry))
    (tagger' : Tagger) (dry : Bool) (ops : List Op) (e' : GHError)
    (h1 : repo.create_git_tag t ("Version " ++ t) head.object.sha head.object.type tagger
        = Except.error e)
    (h2 : tag_repo entry.repo entry.need_tags tagger' dry = (ops, some e')) :
    tag_tags repo head tagger false (t :: rest)
      = ([Op.addingTag t,
          Op.createTagObject t ("Version " ++ t) head.object.sha head.object.type tagger],
         some e)
    ∧ apply_all tagger' dry ((k, entry) :: rest') = ([(k, ops)], some e') := by
  constructor
  · simp [tag_tags, h1]
  · simp [apply_all, h2]

/-- Witness for C4 (amended): creating `v1.0` fails on `failTagRepo`, so the
per-tag trace for `["v1.0", "v1.1"]` stops before `v1.1` and the apply loop
stops before `acme/r2`. -/
theorem tag_failure_aborts_remaining_work_witness :
    (failTagRepo.create_git_tag "v1.0" ("Version " ++ "v1.0")
        (GitRef.mk "refs/heads/main" ⟨"commit", "sha1"⟩).object.sha
        (GitRef.mk "refs/heads/main" ⟨"commit", "sha1"⟩).object.type tagger0
      = Except.error GHError.unauthorized
      ∧ tag_repo failTagRepo ["v1.0"] tagger0 false
        = ([Op.getRef "heads/main", Op.addingTag "v1.0",
            Op.createTagObject "v1.0" "Version v1.0" "sha1" "commit" tagger0],
           some GHError.unauthorized))
    ∧ tag_tags failTagRepo ⟨"refs/heads/main", ⟨"commit", "sha1"⟩⟩ tagger0 false
        ["v1.0", "v1.1"]
      = ([Op.addingTag "v1.0",
          Op.createTagObject "v1.0" ("Version " ++ "v1.0") "sha1" "commit" tagger0],
         some GHError.unauthorized)
    ∧ apply_all tagger0 false
        [("acme/r1", ⟨failTagRepo, ["v1.0"]⟩), ("acme/r2", ⟨okRepo2, ["v1.0"]⟩)]
      = ([("acme/r1",
            [Op.getRef "heads/main", Op.addingTag "v1.0",
             Op.createTagObject "v1.0" "Version v1.0" "sha1" "commit" tagger0])],
         some GHError.unauthorized) := by
  refine ⟨⟨by decide, by decide⟩, ?_, ?_⟩
  · exact (tag_failure_aborts_remaining_work failTagRepo
      ⟨"refs/heads/main", ⟨"commit", "sha1"⟩⟩ tagger0 "v1.0" ["v1.1"] GHError.unauthorized
      "acme/r1" ⟨failTagRepo, ["v1.0"]⟩ [("acme/r2", ⟨okRepo2, ["v1.0"]⟩)] tagger0 false
      [Op.getRef "heads/main", Op.addingTag "v1.0",
       Op.createTagObject "v1.0" "Version v1.0" "sha1" "commit" tagger0]
      GHError.unauthorized (by decide) (by decide)).1
  · exact (tag_failure_aborts_remaining_work failTagRepo
      ⟨"refs/heads/main", ⟨"commit", "sha1"⟩⟩ tagger0 "v1.0" ["v1.1"] GHError.unauthorized
      "acme/r1" ⟨failTagRepo, ["v1.0"]⟩ [("acme/r2", ⟨okRepo2, ["v1.0"]⟩)] tagger0 false
      [Op.getRef "heads/main", Op.addingTag "v1.0",
       Op.createTagObject "v1.0" "Version v1.0" "sha1" "commit" tagger0]
      GHError.unauthorized (by decide) (by decide)).2

theorem intendedTags_map_addingTag (tags : List String) :
    (tags.map Op.addingTag).filterMap (fun o =>
      match o with
      | Op.addingTag t => some t
      | _ => none) = tags := by
  induction tags with
  | nil => rfl
  | cons t rest ih => simp [List.filterMap_cons, ih]

theorem createdTagNames_of_ok (repo : Repo) (head : GitRef) (tagger : Tagger)
    (tags : List String) (h : (tag_tags repo head tagger false tags).2 = none) :
    createdTagNames (tag_tags repo head tagger false tags).1 = tags := by
  induction tags with
  | nil => rfl
  | cons t rest ih =>
    cases hct : repo.create_git_tag t ("Version " ++ t) head.object.sha head.object.type tagger with
    | error e =>
      exfalso
      simp [tag_tags, hct] at h
    | ok tag_obj =>
      cases hcr : repo.create_git_ref ("refs/tags/" ++ t) tag_obj.sha with
      | error e =>
        exfalso
        simp [tag_tags, hct, hcr] at h
      | ok rr =>
        have h2 : (tag_tags repo head tagger false rest).2 = none := by
          simpa [tag_tags, hct, hcr] using h
        have ihh := ih h2
        simp [tag_tags, hct, hcr, createdTagNames, List.filterMap_cons] at ihh ⊢
        exact ihh

/-- C5: a dry-run `tag_repo` issues no `create_git_tag` and no
`create_git_ref` call, and the per-tag "would create" records of the dry run
name exactly the tags a successful non-dry run on the same inputs creates
tag objects for. -/
theorem dry_run_purity (repo : Repo) (tags : List String) (tagger : Tagger)
    (hsucc : (tag_repo repo tags tagger false).2 = none) :
    (tag_repo repo tags tagger true).1.filter Op.isWrite = []
    ∧ intendedTags (tag_repo repo tags tagger true).1
        = createdTagNames (tag_repo repo tags tagger false).1 := by
  cases hh : repo.refs ("heads/" ++ repo.default_branch) with
  | error e =>
    exfalso
    have hbad : (tag_repo repo tags tagger false).2 = some e := by
      simp [tag_repo, Repo.get_git_ref, hh]
    rw [hbad] at hsucc
    cases hsucc
  | ok obj =>
    have hget : repo.get_git_ref ("heads/" ++ repo.default_branch)
        = Except.ok ⟨"refs/" ++ ("heads/" ++ repo.default_branch), obj⟩ := by
      unfold Repo.get_git_ref
      rw [hh]
    have hdry : (tag_repo repo tags tagger true).1
        = Op.getRef ("heads/" ++ repo.default_branch) :: tags.map Op.addingTag := by
      simp [tag_repo, hget, tag_tags_dry]
    have hsucc2 : (tag_tags repo ⟨"refs/" ++ ("heads/" ++ repo.default_branch), obj⟩
        tagger false tags).2 = none := by
      have := hsucc
      simp [tag_repo, hget] at this
      exact this
    have hnond : (tag_repo repo tags tagger false).1
        = Op.getRef ("heads/" ++ repo.default_branch)
            :: (tag_tags repo ⟨"refs/" ++ ("heads/" ++ repo.default_branch), obj⟩
                tagger false tags).1 := by
      simp [tag_repo, hget]
    have hcr := createdTagNames_of_ok repo
      ⟨"refs/" ++ ("heads/" ++ repo.default_branch), obj⟩ tagger tags hsucc2
    constructor
    · rw [hdry]
      rw [List.filter_cons_of_neg (by simp [Op.isWrite])]
      apply List.filter_eq_nil_iff.mpr
      intro o ho
      rcases List.mem_map.mp ho with ⟨t, _, rfl⟩
      simp [Op.isWrite]
    · rw [hdry, hnond]
      rw [show intendedTags (Op.getRef ("heads/" ++ repo.default_branch)
            :: tags.map Op.addingTag)
          = (tags.map Op.addingTag).filterMap (fun o =>
              match o with
              | Op.addingTag t => some t
              | _ => none) from rfl]
      rw [intendedTags_map_addingTag]
      rw [show createdTagNames (Op.getRef ("heads/" ++ repo.default_branch)
            :: (tag_tags repo ⟨"refs/" ++ ("heads/" ++ repo.default_branch), obj⟩
                tagger false tags).1)
          = createdTagNames (tag_tags repo
              ⟨"refs/" ++ ("heads/" ++ repo.default_branch), obj⟩ tagger false tags).1
          from rfl]
      rw [hcr]

/-- Witness for C5: on `wRepo` with tag request `["v1.1"]` the dry run
performs no writes and would create exactly the tag the non-dry run
creates. -/
theorem dry_run_purity_witness :
    (tag_repo wRepo ["v1.1"] tagger0 false).2 = none
    ∧ ((tag_repo wRepo ["v1.1"] tagger0 true).1.filter Op.isWrite = []
       ∧ intendedTags (tag_repo wRepo ["v1.1"] tagger0 true).1
           = createdTagNames (tag_repo wRepo ["v1.1"] tagger0 false).1) :=
  ⟨by decide, dry_run_purity wRepo ["v1.1"] tagger0 (by decide)⟩

/-- C3 (divergence witnessed): when the provider raises an authorization
error (a `github.GithubException`) during the tag-existence lookup,
`find_tag_by_name` swallows it — the `except github.GithubException: pass`
clause — and reports `None`, exactly as if the tag were absent, instead of
propagating the error. -/
theorem find_tag_by_name_swallows_auth_error :
    authFailRepo.refs ("tags/" ++ "v1.0") = Except.error GHError.unauthorized
    ∧ find_tag_by_name authFailRepo "v1.0" = none :=
  ⟨rfl, rfl⟩

/-- Counterexample for C6 as stated: `wRepo` belongs to both matched teams
`A` and `B`, and the resolved list contains it twice — not "exactly once";
the resolver does not deduplicate by full name. -/
theorem resolver_duplicates_cex :
    ((resolve_target_repos demoTeams ["A", "B"]).map Repo.full_name)
      = ["acme/widget", "acme/widget"]
    ∧ (resolve_target_repos demoTeams ["A", "B"]).countP
        (fun r => r.full_name == "acme/widget") = 2 :=
  ⟨by decide, by decide⟩

/-- C6 (amended): the resolver returns the concatenation of the matched
teams' repository listings without deduplication — a repository occurs once
per matched team listing it — and the result is independent of the order of
the requested team names (the teams are filtered by a membership test in
organization order). -/
theorem resolver_concat_order_independent (org_teams : List Team)
    (names names' : List String) (fn : String) (h : names.Perm names') :
    resolve_target_repos org_teams names = resolve_target_repos org_teams names'
    ∧ (resolve_target_repos org_teams names).countP (fun r => r.full_name == fn)
        = ((org_teams.filter fun t => names.contains t.name).map
            (fun t => t.repos.countP fun r => r.full_name == fn)).sum := by
  constructor
  · unfold resolve_target_repos
    have hf : (org_teams.filter fun t => names.contains t.name)
        = org_teams.filter fun t => names'.contains t.name := by
      apply List.filter_congr
      intro t _
      exact contains_eq_of_mem_iff h.mem_iff
    rw [hf]
  · unfold resolve_target_repos
    rw [List.countP_flatten, List.map_map]
    rfl

/-- Witness for C6 (amended): permuting `["A", "B"]` leaves the resolved
list unchanged, and `acme/widget` occurs once per matched team. -/
theorem resolver_concat_order_independent_witness :
    (["A", "B"] : List String).Perm ["B", "A"]
    ∧ (resolve_target_repos demoTeams ["A", "B"] = resolve_target_repos demoTeams ["B", "A"]
       ∧ (resolve_target_repos demoTeams ["A", "B"]).countP
             (fun r => r.full_name == "acme/widget")
           = ((demoTeams.filter fun t => (["A", "B"] : List String).contains t.name).map
               (fun t => t.repos.countP fun r => r.full_name == "acme/widget")).sum) :=
  ⟨by decide,
   resolver_concat_order_independent demoTeams ["A", "B"] ["B", "A"] "acme/widget" (by decide)⟩

/-- C7: when zero organization teams match the requested names, the run
stops at `raise RuntimeError('No teams found')` before any tagging work, and
no provider write call is made. -/
theorem no_teams_aborts_before_writes (org_teams : List Team)
    (team_names tags : List String) (tagger : Tagger) (dry : Bool)
    (h : (org_teams.filter fun t => team_names.contains t.name).isEmpty = true) :
    run_main org_teams team_names tags tagger dry = MainOutcome.noTeamsError
    ∧ MainOutcome.writeOps (run_main org_teams team_names tags tagger dry) = [] := by
  have h1 : run_main org_teams team_names tags tagger dry = MainOutcome.noTeamsError := by
    simp only [run_main]
    rw [h]
    simp
  exact ⟨h1, by rw [h1]; rfl⟩

/-- Witness for C7: a requested team name matching no organization team
aborts the run with zero writes. -/
theorem no_teams_aborts_before_writes_witness :
    (([⟨"DM Aux", []⟩] : List Team).filter fun t =>
        (["Ghost Team"] : List String).contains t.name).isEmpty = true
    ∧ (run_main [⟨"DM Aux", []⟩] ["Ghost Team"] ["v1.0"] tagger0 false
         = MainOutcome.noTeamsError
       ∧ MainOutcome.writeOps
           (run_main [⟨"DM Aux", []⟩] ["Ghost Team"] ["v1.0"] tagger0 false) = []) :=
  ⟨by decide,
   no_teams_aborts_before_writes [⟨"DM Aux", []⟩] ["Ghost Team"] ["v1.0"] tagger0 false
     (by decide)⟩

/-- Counterexample for C8 as stated: a matched team with zero repositories
makes the analyzer's result map empty (vacuously, every target repository is
fully tagged), yet the run terminates with the `ValueError` raised by
`max(names, key=len)` over the empty name list — not with the
"nothing to do" exit. -/
theorem nothing_to_do_cex_empty_targets :
    find_repos_missing_tags
        ((([(⟨"Core", []⟩ : Team)].filter fun t =>
            (["Core"] : List String).contains t.name).map Team.repos).flatten) ["w.2018.1"]
      = []
    ∧ run_main [⟨"Core", []⟩] ["Core"] ["w.2018.1"] tagger0 false
        = MainOutcome.emptyNamesError :=
  ⟨rfl, by decide⟩

/-- C8 (amended): when at least one team matches, at least one target
repository is resolved, and the analyzer finds no repository missing any
requested tag, the run terminates at
`sys.exit('no untagged repos -- nothing to do')` with zero provider write
calls.  (With zero resolved target repositories the run instead dies with a
`ValueError` computing the longest repository name, before the analysis —
see the counterexample.) -/
theorem fully_tagged_nothing_to_do (org_teams : List Team)
    (team_names tags : List String) (tagger : Tagger) (dry : Bool)
    (h1 : (org_teams.filter fun t => team_names.contains t.name).isEmpty = false)
    (h2 : ((((org_teams.filter fun t => team_names.contains t.name).map Team.repos).flatten).map
        Repo.full_name).isEmpty = false)
    (h3 : (find_repos_missing_tags
        (((org_teams.filter fun t => team_names.contains t.name).map Team.repos).flatten)
        tags).isEmpty = true) :
    run_main org_teams team_names tags tagger dry = MainOutcome.nothingToDo
    ∧ MainOutcome.writeOps (run_main org_teams team_names tags tagger dry) = [] := by
  have hr : run_main org_teams team_names tags tagger dry = MainOutcome.nothingToDo := by
    simp only [run_main]
    rw [h1, h2, h3]
    simp
  exact ⟨hr, by rw [hr]; rfl⟩

/-- Witness for C8 (amended): one matched team with one repository that
already carries the single requested tag; the run exits "nothing to do" with
zero writes. -/
theorem fully_tagged_nothing_to_do_witness :
    ((([⟨"Core", [wRepo]⟩] : List Team).filter fun t =>
         (["Core"] : List String).contains t.name).isEmpty = false
      ∧ (find_repos_missing_tags
           ((([⟨"Core", [wRepo]⟩] : List Team).filter fun t =>
               (["Core"] : List String).contains t.name).map Team.repos).flatten
           ["v1.0"]).isEmpty = true)
    ∧ (run_main [⟨"Core", [wRepo]⟩] ["Core"] ["v1.0"] tagger0 false = MainOutcome.nothingToDo
       ∧ MainOutcome.writeOps
           (run_main [⟨"Core", [wRepo]⟩] ["Core"] ["v1.0"] tagger0 false) = []) :=
  ⟨⟨by decide, by decide⟩,
   fully_tagged_nothing_to_do [⟨"Core", [wRepo]⟩] ["Core"] ["v1.0"] tagger0 false
     (by decide) (by decide) (by decide)⟩

/-- C9: the team-membership cache is keyed by repository full name, not by
instance: after any lookup for a repository, a second lookup for any
repository with the same full name returns the first lookup's team list with
zero provider calls and leaves the cache unchanged; and a run's first lookup
from the empty cache (the state at interpreter start, so nothing is shared
across invocations) queries the provider exactly once. -/
theorem team_cache_keyed_by_full_name (c : List (String × List String)) (r₁ r₂ : Repo)
    (h : r₁.full_name = r₂.full_name) :
    find_repo_teams (find_repo_teams c r₁).2.1 r₂
      = ((find_repo_teams c r₁).1, (find_repo_teams c r₁).2.1, 0)
    ∧ (find_repo_teams [] r₁).1 = r₁.get_teams
    ∧ (find_repo_teams [] r₁).2.2 = 1 := by
  refine ⟨?_, rfl, rfl⟩
  cases hl : List.lookup r₁.full_name c with
  | some ts =>
    have e1 : find_repo_teams c r₁ = (ts, c, 0) := by
      simp [find_repo_teams, hl]
    rw [e1]
    have hl2 : List.lookup r₂.full_name c = some ts := by
      rw [← h]
      exact hl
    simp [find_repo_teams, hl2]
  | none =>
    have e1 : find_repo_teams c r₁
        = (r₁.get_teams, dictInsert r₁.full_name r₁.get_teams c, 1) := by
      simp [find_repo_teams, hl]
    rw [e1]
    have hl2 : List.lookup r₂.full_name (dictInsert r₁.full_name r₁.get_teams c)
        = some r₁.get_teams := by
      rw [lookup_dictInsert]
      rw [if_pos h.symm]
    simp [find_repo_teams, hl2]

/-- Witness for C9: `wRepoOther` shares `wRepo`'s full name but has a
different provider team listing; the second lookup still returns `wRepo`'s
cached list `["Core"]` with zero provider calls. -/
theorem team_cache_keyed_by_full_name_witness :
    wRepo.full_name = wRepoOther.full_name
    ∧ (find_repo_teams (find_repo_teams [] wRepo).2.1 wRepoOther
        = ((find_repo_teams [] wRepo).1, (find_repo_teams [] wRepo).2.1, 0)
       ∧ (find_repo_teams [] wRepo).1 = wRepo.get_teams
       ∧ (find_repo_teams [] wRepo).2.2 = 1)
    ∧ (find_repo_teams (find_repo_teams [] wRepo).2.1 wRepoOther).1 = ["Core"]
    ∧ wRepoOther.get_teams = ["Other"] :=
  ⟨rfl, team_cache_keyed_by_full_name [] wRepo wRepoOther rfl, by decide, rfl⟩
